import Mathlib

/-!
Verification of the job-execution core of django-chronograph against its
natural-language specification.  The definitions below are a shallow embedding of
chronograph/models.py: timestamps are natural numbers, Python strings are Lean
strings (their character lists where splitting matters), Python exceptions are
explicit values, and the external collaborators (the in-process command invoker,
the process spawner, the site/url resolver and the dateutil recurrence library)
are oracles or definitions modelled from the specification, marked as such.
-/

/-- Kind of a raised Python error: ordinary errors derive from Exception and are
caught by an `except Exception` clause; fatal ones (SystemExit, KeyboardInterrupt)
derive only from BaseException and pass through such a clause. -/
inductive PyKind where
  | ordinary
  | fatal
  deriving DecidableEq, Repr

/-- A raised Python error: its kind, its message and its stack trace text. -/
structure PyExc where
  kind : PyKind
  msg : String
  tb : String
  deriving DecidableEq, Repr

deriving instance DecidableEq for Except

/-- Python str.split(sep) for a one-character separator: every occurrence splits,
empty pieces are kept, and splitting the empty string gives one empty piece.
Mirrors params.split(";"), param.split(":"), value.split(",") and arg.split("=")
in models.py. -/
def splitOnChar (sep : Char) : List Char → List (List Char)
  | [] => [[]]
  | c :: cs =>
    match splitOnChar sep cs with
    | [] => [[]]
    | t :: ts => if c = sep then [] :: t :: ts else (c :: t) :: ts

/-- Helper for Python str.split() with no argument: split at every whitespace
character, empty pieces still present. -/
def splitWsRaw : List Char → List (List Char)
  | [] => [[]]
  | c :: cs =>
    match splitWsRaw cs with
    | [] => [[]]
    | t :: ts => if c.isWhitespace then [] :: t :: ts else (c :: t) :: ts

/-- Python str.split() with no argument, as used by Job.get_args: whitespace runs
separate tokens and no empty tokens are produced. -/
def pySplitWs (cs : List Char) : List (List Char) :=
  (splitWsRaw cs).filter (fun t => t ≠ [])

/-- Number of occurrences of a character in a character list. -/
def countChar (sep : Char) (cs : List Char) : Nat :=
  (cs.filter (fun c => c = sep)).length

/-- Value of a nonempty all-digit character list; none when empty or when any
character is not a decimal digit. -/
def digitsVal (cs : List Char) : Option Nat :=
  if cs.isEmpty then none
  else cs.foldlM (fun a c => if c.isDigit then some (a * 10 + (c.toNat - 48)) else none) 0

/-- Python int(text) on the strings Job.get_params feeds it: optional surrounding
whitespace, an optional sign, then decimal digits; anything else raises ValueError,
rendered here as none. -/
def pythonInt (cs : List Char) : Option Int :=
  let t := ((cs.dropWhile Char.isWhitespace).reverse.dropWhile Char.isWhitespace).reverse
  match t with
  | '-' :: rest => (digitsVal rest).map (fun n => -(n : Int))
  | '+' :: rest => (digitsVal rest).map (fun n => (n : Int))
  | _ => (digitsVal t).map (fun n => (n : Int))

/-- A recurrence parameter value: an integer scalar or an integer list, as built
by Job.get_params. -/
inductive ParamVal where
  | scalar (n : Int)
  | vals (ns : List Int)
  deriving DecidableEq, Repr

/-- A subscriber, with the result of the Django get_full_name() call carried as a
field (first and last name joining happens outside this repository). -/
structure User where
  username : String
  full_name : String
  email : String
  deriving DecidableEq, Repr

/-- The Job row of models.py, with timestamps as natural numbers and the two
many-to-many subscriber sets as lists. -/
structure Job where
  id : Nat
  name : String
  frequency : String
  params : Option String
  command : String
  shell_command : String
  run_in_shell : Bool
  args : String
  disabled : Bool
  next_run : Option Nat
  last_run : Option Nat
  is_running : Bool
  last_run_successful : Bool
  info_subscribers : List User
  subscribers : List User
  deriving DecidableEq, Repr

/-- One iteration of the Job.get_params loop (models.py 137-143): the token is
split on ":"; only a token with exactly two pieces is kept; its value piece is
split on "," and each piece parsed by int(); a one-element value list collapses to
a scalar.  Outer none models the ValueError raised by int(); inner none means the
token was silently dropped. -/
def paramToken (tok : List Char) : Option (Option (String × ParamVal)) :=
  match splitOnChar ':' tok with
  | [k, v] =>
    match (splitOnChar ',' v).mapM pythonInt with
    | none => none
    | some [n] => some (some (⟨k⟩, ParamVal.scalar n))
    | some ns => some (some (⟨k⟩, ParamVal.vals ns))
  | _ => some none

/-- Job.get_params (models.py 127-144): none params give an empty mapping;
otherwise the text splits on ";" and each token goes through paramToken.  The
outer none models a ValueError escaping get_params. -/
def Job.get_params (j : Job) : Option (List (String × ParamVal)) :=
  match j.params with
  | none => some []
  | some text => ((splitOnChar ';' text.data).mapM paramToken).map (fun l => l.filterMap (fun x => x))

/-- Lookup in the dict built by dict(param_dict): for duplicate keys the later
pair wins. -/
def dictGet (ps : List (String × ParamVal)) (k : String) : Option ParamVal :=
  ps.foldl (fun acc p => if p.1 = k then some p.2 else acc) none

/-- Python dict assignment options[key] = value used by Job.get_args. -/
def dictPut (d : List (String × String)) (k v : String) : List (String × String) :=
  if d.any (fun p => p.1 = k) then d.map (fun p => if p.1 = k then (k, v) else p)
  else d ++ [(k, v)]

/-- One iteration of the Job.get_args loop (models.py 152-157): a token containing
"=" is split on every "=" and unpacked into exactly two names, so a token with two
or more "=" raises ValueError (none here); a token without "=" is positional. -/
def argToken (acc : List String × List (String × String)) (tok : List Char) :
    Option (List String × List (String × String)) :=
  if '=' ∈ tok then
    match splitOnChar '=' tok with
    | [k, v] => some (acc.1, dictPut acc.2 ⟨k⟩ ⟨v⟩)
    | _ => none
  else some (acc.1 ++ [⟨tok⟩], acc.2)

/-- Job.get_args (models.py 146-158): the args string splits on whitespace and
each token goes through argToken; none models the ValueError that a token with
more than one "=" raises. -/
def Job.get_args (j : Job) : Option (List String × List (String × String)) :=
  (pySplitWs j.args.data).foldlM argToken ([], [])

/-- Seconds advanced by one unit of each frequency class.  getattr(rrule,
self.frequency, rrule.DAILY) in Job.get_rrule (models.py 123) makes any string
outside the seven documented classes fall back to DAILY.  The MONTHLY and YEARLY
unit sizes are fixed at 30 and 365 days; no claim depends on unit sizes. -/
def freqStep (frequency : String) : Nat :=
  if frequency = "YEARLY" then 31536000
  else if frequency = "MONTHLY" then 2592000
  else if frequency = "WEEKLY" then 604800
  else if frequency = "DAILY" then 86400
  else if frequency = "HOURLY" then 3600
  else if frequency = "MINUTELY" then 60
  else if frequency = "SECONDLY" then 1
  else 86400

/-- Modelled from the spec: the dateutil rrule class used by Job.get_rrule is an
external library, absent from this repository.  Spec 4.1: NextOccurrence is pure
and returns the first occurrence strictly after the reference time; occurrences
start at dtstart and advance by interval times the frequency unit; count bounds
how many occurrences exist, and when they are exhausted there is no next
occurrence (the dateutil after method returns None).  The by-unit filters of 4.1
only remove occurrences and no claim depends on them, so they are not modelled. -/
def rruleAfter (frequency : String) (ps : List (String × ParamVal)) (dtstart after : Nat) :
    Option Nat :=
  let step := freqStep frequency
  let interval : Int :=
    match dictGet ps "interval" with
    | some (ParamVal.scalar n) => n
    | _ => 1
  let count : Option Int :=
    match dictGet ps "count" with
    | some (ParamVal.scalar n) => some n
    | _ => none
  let stride : Nat := interval.toNat * step
  let within : Nat → Bool := fun i =>
    match count with
    | some c => decide ((i : Int) < c)
    | none => true
  if after < dtstart then
    if within 0 then some dtstart else none
  else if stride = 0 then none
  else
    let i := (after - dtstart) / stride + 1
    if within i then some (dtstart + i * stride) else none

/-- The ValueError that int() raises on a malformed literal inside get_params. -/
def valueErrorExc : PyExc :=
  ⟨PyKind.ordinary, "ValueError: invalid literal for int()", ""⟩

/-- Job.save (models.py 84-93) at wall-clock time t.  For an enabled job a null
last_run is first filled with the current time, then a null next_run is computed
as self.rrule.after(self.last_run) where the rrule has dtstart self.last_run;
building the rrule calls get_params, whose ValueError propagates (error).  For a
disabled job next_run is forced to null. -/
def Job.save (t : Nat) (j : Job) : Except PyExc Job :=
  if j.disabled then Except.ok {j with next_run := none}
  else
    let lr := match j.last_run with
      | some x => x
      | none => t
    let j1 := {j with last_run := some lr}
    if j1.next_run = none then
      match j1.get_params with
      | none => Except.error valueErrorExc
      | some ps => Except.ok {j1 with next_run := rruleAfter j1.frequency ps lr lr}
    else Except.ok j1

/-- The row qualifier of JobManager.due (models.py 28-33):
filter(next_run__lte=now(), disabled=False, is_running=False).  In SQL a NULL
next_run fails the lte comparison, so such a row is excluded. -/
def dueQual (t : Nat) (j : Job) : Bool :=
  (match j.next_run with
   | some nr => decide (nr ≤ t)
   | none => false) && !j.disabled && !j.is_running

/-- JobManager.due over an abstract store of Job rows at query time t. -/
def JobManager.due (store : List Job) (t : Nat) : List Job :=
  store.filter (dueQual t)

/-- A baseline Job record used to build the concrete instances appearing in
counterexamples and witnesses. -/
def baseJob : Job where
  id := 1
  name := "job"
  frequency := "DAILY"
  params := none
  command := ""
  shell_command := ""
  run_in_shell := false
  args := ""
  disabled := false
  next_run := none
  last_run := none
  is_running := false
  last_run_successful := true
  info_subscribers := []
  subscribers := []

theorem splitOnChar_ne_nil (sep : Char) (cs : List Char) : splitOnChar sep cs ≠ [] := by
  induction cs with
  | nil => simp [splitOnChar]
  | cons c cs ih =>
    cases h : splitOnChar sep cs with
    | nil => exact absurd h ih
    | cons t ts =>
      simp only [splitOnChar, h]
      by_cases hc : c = sep <;> simp [hc]

theorem splitOnChar_length (sep : Char) (cs : List Char) :
    (splitOnChar sep cs).length = countChar sep cs + 1 := by
  induction cs with
  | nil => simp [splitOnChar, countChar]
  | cons c cs ih =>
    cases h : splitOnChar sep cs with
    | nil => exact absurd h (splitOnChar_ne_nil sep cs)
    | cons t ts =>
      rw [h] at ih
      by_cases hc : c = sep <;>
        simp [splitOnChar, h, countChar, List.filter, hc] at ih ⊢ <;> omega

theorem splitOnChar_not_mem (sep : Char) (cs : List Char) (h : sep ∉ cs) :
    splitOnChar sep cs = [cs] := by
  induction cs with
  | nil => rfl
  | cons c cs ih =>
    have hc : c ≠ sep := fun e => h (e ▸ List.mem_cons_self c cs)
    have hcs : sep ∉ cs := fun m => h (List.mem_cons_of_mem c m)
    simp [splitOnChar, ih hcs, hc]

theorem splitOnChar_pair (sep : Char) (k v : List Char) (hk : sep ∉ k) (hv : sep ∉ v) :
    splitOnChar sep (k ++ sep :: v) = [k, v] := by
  induction k with
  | nil => simp [splitOnChar, splitOnChar_not_mem sep v hv]
  | cons c cs ih =>
    have hc : c ≠ sep := fun e => hk (e ▸ List.mem_cons_self c cs)
    have hcs : sep ∉ cs := fun m => hk (List.mem_cons_of_mem c m)
    simp [splitOnChar, ih hcs, hc]

theorem mem_of_countChar_pos (sep : Char) (cs : List Char) (h : 0 < countChar sep cs) :
    sep ∈ cs := by
  induction cs with
  | nil => simp [countChar] at h
  | cons c cs ih =>
    by_cases hc : c = sep
    · rw [hc]; exact List.mem_cons_self sep cs
    · have h2 : 0 < countChar sep cs := by
        simpa [countChar, List.filter_cons, hc] using h
      exact List.mem_cons_of_mem c (ih h2)

theorem splitWsRaw_no_ws (cs : List Char) (h : ∀ c ∈ cs, ¬ c.isWhitespace) :
    splitWsRaw cs = [cs] := by
  induction cs with
  | nil => rfl
  | cons c cs ih =>
    have hc : ¬ c.isWhitespace := h c (List.mem_cons_self c cs)
    have hcs : ∀ x ∈ cs, ¬ x.isWhitespace := fun x m => h x (List.mem_cons_of_mem c m)
    simp [splitWsRaw, ih hcs, hc]

theorem pySplitWs_single (tok : List Char) (h1 : tok ≠ [])
    (h2 : ∀ c ∈ tok, ¬ c.isWhitespace) : pySplitWs tok = [tok] := by
  simp [pySplitWs, splitWsRaw_no_ws tok h2, h1]

theorem lt_div_succ_mul (m s : Nat) (hs : s ≠ 0) : m < (m / s + 1) * s := by
  have h1 := Nat.div_add_mod m s
  have h2 := Nat.mod_lt m (Nat.pos_of_ne_zero hs)
  calc m = s * (m / s) + m % s := h1.symm
    _ < s * (m / s) + s := Nat.add_lt_add_left h2 _
    _ = (m / s + 1) * s := by ring

/-- C2 (amended): every occurrence NextOccurrence returns is strictly later than
the reference timestamp, and an unknown or unsupported frequency class falls back
to Daily; but when the parameter count exhausts the occurrence set, NextOccurrence
returns none instead of a timestamp. -/
theorem c2_theorem :
    (∀ (freq : String) (ps : List (String × ParamVal)) (d a t : Nat),
        rruleAfter freq ps d a = some t → a < t) ∧
    (∀ freq : String,
        freq ∉ ["YEARLY", "MONTHLY", "WEEKLY", "DAILY", "HOURLY", "MINUTELY", "SECONDLY"] →
        ∀ (ps : List (String × ParamVal)) (d a : Nat),
          rruleAfter freq ps d a = rruleAfter "DAILY" ps d a) := by
  constructor
  · intro freq ps d a t h
    unfold rruleAfter at h
    simp only at h
    split at h
    · split at h
      · exact Option.some.inj h ▸ (by assumption)
      · exact absurd h (by simp)
    · split at h
      · exact absurd h (by simp)
      · split at h
        · have hne : ¬ a < d := by assumption
          have hs : ¬ (Int.toNat
              (match dictGet ps "interval" with
                | some (ParamVal.scalar n) => n
                | _ => 1) * freqStep freq) = 0 := by assumption
          have hkey := lt_div_succ_mul (a - d) _ hs
          have ht := Option.some.inj h
          generalize hx : ((a - d) /
              (Int.toNat
                (match dictGet ps "interval" with
                  | some (ParamVal.scalar n) => n
                  | _ => 1) * freqStep freq) + 1) *
              (Int.toNat
                (match dictGet ps "interval" with
                  | some (ParamVal.scalar n) => n
                  | _ => 1) * freqStep freq) = x at hkey ht
          omega
        · exact absurd h (by simp)
  · intro freq h ps d a
    simp only [List.mem_cons, List.not_mem_nil, or_false] at h
    push_neg at h
    obtain ⟨e1, e2, e3, e4, e5, e6, e7⟩ := h
    have hstep : freqStep freq = 86400 := by
      simp [freqStep, e1, e2, e3, e4, e5, e6, e7]
    have hd : freqStep "DAILY" = 86400 := rfl
    unfold rruleAfter
    rw [hstep, hd]

/-- C2 counterexample: the supported parameter count can exhaust the occurrence
set, in which case NextOccurrence yields no timestamp at all (dateutil after
returns None), contradicting the claim that a strictly later timestamp is always
returned. -/
theorem c2_counterexample :
    Job.get_params {baseJob with params := some "count:1"} =
      some [("count", ParamVal.scalar 1)] ∧
    rruleAfter "DAILY" [("count", ParamVal.scalar 1)] 0 0 = none := by decide

theorem c2_witness :
    5 < 86400 ∧ rruleAfter "BOGUS" [] 3 7 = rruleAfter "DAILY" [] 3 7 :=
  ⟨c2_theorem.1 "DAILY" [] 0 5 86400 (by decide), c2_theorem.2 "BOGUS" (by decide) [] 3 7⟩

/-- C3 counterexample: the claim states that a token containing an equals sign is
split on the first equals sign only, so the token a=b=c would yield the option
pair (a, b=c); the code instead splits on every equals sign and the two-name
unpacking raises ValueError, so get_args fails. -/
theorem c3_counterexample :
    Job.get_args {baseJob with args := "a=b=c"} = none ∧
    Job.get_args {baseJob with args := "a=b=c"} ≠ some ([], [("a", "b=c")]) := by decide

/-- C3 (amended): get_args tokenizes on whitespace; a token with no equals sign is
positional; a token with exactly one equals sign becomes a key/value option pair;
a token with two or more equals signs makes get_args raise ValueError rather than
splitting on the first equals sign; the documented example parses as stated. -/
theorem c3_theorem (tok : List Char) (h1 : tok ≠ [])
    (h2 : ∀ c ∈ tok, ¬ c.isWhitespace) :
    (('=' ∉ tok) → Job.get_args {baseJob with args := ⟨tok⟩} = some ([⟨tok⟩], [])) ∧
    (∀ k v, tok = k ++ '=' :: v → '=' ∉ k → '=' ∉ v →
      Job.get_args {baseJob with args := ⟨tok⟩} = some ([], [(⟨k⟩, ⟨v⟩)])) ∧
    (2 ≤ countChar '=' tok → Job.get_args {baseJob with args := ⟨tok⟩} = none) ∧
    Job.get_args {baseJob with args := "arg1 option1=True"} =
      some (["arg1"], [("option1", "True")]) := by
  have hsplit : pySplitWs tok = [tok] := pySplitWs_single tok h1 h2
  have hget : Job.get_args {baseJob with args := ⟨tok⟩} = argToken ([], []) tok := by
    show (pySplitWs tok).foldlM argToken ([], []) = argToken ([], []) tok
    rw [hsplit]
    cases h : argToken ([], []) tok <;> simp [List.foldlM_cons, List.foldlM_nil, h]
  refine ⟨?_, ?_, ?_, by decide⟩
  · intro hno
    rw [hget]
    simp [argToken, hno]
  · intro k v heq hk hv
    rw [hget, heq]
    have hm : '=' ∈ k ++ '=' :: v := List.mem_append_right k (List.mem_cons_self '=' v)
    simp [argToken, hm, splitOnChar_pair '=' k v hk hv, dictPut]
  · intro hc
    rw [hget]
    have hm : '=' ∈ tok := mem_of_countChar_pos '=' tok (by omega)
    have hlen := splitOnChar_length '=' tok
    simp only [argToken, if_pos hm]
    cases hs : splitOnChar '=' tok with
    | nil => exact absurd hs (splitOnChar_ne_nil '=' tok)
    | cons p l =>
      cases l with
      | nil => rfl
      | cons q l2 =>
        cases l2 with
        | nil =>
          exfalso
          rw [hs] at hlen
          simp at hlen
          omega
        | cons r l3 => rfl

theorem c3_witness :
    (('=' ∉ "x=1".data) →
      Job.get_args {baseJob with args := ⟨"x=1".data⟩} = some ([⟨"x=1".data⟩], [])) ∧
    (∀ k v, "x=1".data = k ++ '=' :: v → '=' ∉ k → '=' ∉ v →
      Job.get_args {baseJob with args := ⟨"x=1".data⟩} = some ([], [(⟨k⟩, ⟨v⟩)])) ∧
    (2 ≤ countChar '=' "x=1".data →
      Job.get_args {baseJob with args := ⟨"x=1".data⟩} = none) ∧
    Job.get_args {baseJob with args := "arg1 option1=True"} =
      some (["arg1"], [("option1", "True")]) :=
  c3_theorem "x=1".data (by decide) (by decide)

/-- The membership condition asserted by claim C5, written from the words of the
spec: a Job is excluded when disabled, running, or when its next_run is later than
now, and included in all other cases (so a null next_run is included). -/
def claimDueIncluded (t : Nat) (j : Job) : Bool :=
  !(j.disabled || j.is_running ||
    (match j.next_run with
     | some nr => decide (t < nr)
     | none => false))

/-- C5 counterexample: a Job with disabled = false, is_running = false and a null
next_run satisfies the claim membership condition, yet the due query excludes it,
because the SQL lte comparison fails on NULL. -/
theorem c5_counterexample :
    claimDueIncluded 100 baseJob = true ∧ JobManager.due [baseJob] 100 = [] := by decide

/-- C5 (amended): Due(now) returns exactly the stored jobs with disabled = false,
is_running = false and a non-null next_run at most now; in particular a job whose
next_run is null is excluded even when it is neither disabled nor running. -/
theorem c5_theorem (store : List Job) (t : Nat) (j : Job) :
    j ∈ JobManager.due store t ↔
      j ∈ store ∧ j.disabled = false ∧ j.is_running = false ∧
        ∃ nr, j.next_run = some nr ∧ nr ≤ t := by
  unfold JobManager.due
  rw [List.mem_filter]
  unfold dueQual
  cases h : j.next_run with
  | none => simp [h]
  | some nr =>
    simp only [h, Bool.and_eq_true, Bool.not_eq_true', decide_eq_true_eq]
    constructor
    · rintro ⟨hs, ⟨hle, hd⟩, hr⟩
      exact ⟨hs, hd, hr, nr, rfl, hle⟩
    · rintro ⟨hs, hd, hr, nr2, hnr, hle⟩
      cases Option.some.inj hnr
      exact ⟨hs, ⟨hle, hd⟩, hr⟩

/-- C7: a get_params token that does not contain exactly one colon is silently
dropped without error; values parse as integers with a one-element value list
collapsing to a scalar and a longer list staying a list; the documented example
parses as stated, and adding the badtoken token changes nothing. -/
theorem c7_theorem (tok : List Char) (h : countChar ':' tok ≠ 1) :
    paramToken tok = some none ∧
    Job.get_params {baseJob with params := some "bysecond:1;byminute:1,2,4,5"} =
      some [("bysecond", ParamVal.scalar 1), ("byminute", ParamVal.vals [1, 2, 4, 5])] ∧
    Job.get_params {baseJob with params := some "bysecond:1;byminute:1,2,4,5;badtoken"} =
      some [("bysecond", ParamVal.scalar 1), ("byminute", ParamVal.vals [1, 2, 4, 5])] := by
  refine ⟨?_, by decide, by decide⟩
  have hlen := splitOnChar_length ':' tok
  unfold paramToken
  cases hs : splitOnChar ':' tok with
  | nil => exact absurd hs (splitOnChar_ne_nil ':' tok)
  | cons p l =>
    cases l with
    | nil => rfl
    | cons q l2 =>
      cases l2 with
      | nil => rw [hs] at hlen; simp at hlen; omega
      | cons r l3 => rfl

theorem c7_witness :
    paramToken "badtoken".data = some none ∧
    Job.get_params {baseJob with params := some "bysecond:1;byminute:1,2,4,5"} =
      some [("bysecond", ParamVal.scalar 1), ("byminute", ParamVal.vals [1, 2, 4, 5])] ∧
    Job.get_params {baseJob with params := some "bysecond:1;byminute:1,2,4,5;badtoken"} =
      some [("bysecond", ParamVal.scalar 1), ("byminute", ParamVal.vals [1, 2, 4, 5])] :=
  c7_theorem "badtoken".data (by decide)

/-- C9: saving a disabled Job always succeeds, forces its next_run to null, and
the saved row is never returned by the due-selection query, whatever the store and
the query time. -/
theorem c9_theorem (t : Nat) (j : Job) (h : j.disabled = true) :
    ∃ jd, Job.save t j = Except.ok jd ∧ jd.next_run = none ∧
      ∀ (store : List Job) (u : Nat), jd ∉ JobManager.due store u := by
  refine ⟨{j with next_run := none}, ?_, rfl, ?_⟩
  · unfold Job.save
    rw [if_pos h]
  · intro store u hmem
    rw [JobManager.due, List.mem_filter] at hmem
    have hq := hmem.2
    unfold dueQual at hq
    simp [h] at hq

theorem c9_witness :
    ∃ jd, Job.save 50 {baseJob with disabled := true} = Except.ok jd ∧
      jd.next_run = none ∧
      ∀ (store : List Job) (u : Nat), jd ∉ JobManager.due store u :=
  c9_theorem 50 {baseJob with disabled := true} rfl

/-- C10: saving an enabled Job whose last_run is null fills last_run with the
current save time before next_run is computed, so when next_run is also null the
first occurrence is computed by the recurrence rule with both dtstart and the
reference time equal to the save time; afterwards last_run is non-null. -/
theorem c10_theorem (t : Nat) (j : Job) (ps : List (String × ParamVal))
    (h1 : j.disabled = false) (h2 : j.last_run = none)
    (hp : Job.get_params j = some ps) :
    ∃ js, Job.save t j = Except.ok js ∧ js.last_run = some t ∧
      (j.next_run = none → js.next_run = rruleAfter j.frequency ps t t) := by
  cases hn : j.next_run with
  | none =>
    have hp3 : Job.get_params
        {j with disabled := false, next_run := none, last_run := some t} = some ps := hp
    unfold Job.save
    simp only [h1, h2, hn, Bool.false_eq_true, if_false, if_true]
    rw [hp3]
    exact ⟨_, rfl, rfl, fun _ => rfl⟩
  | some nr =>
    unfold Job.save
    simp only [h1, h2, hn, Bool.false_eq_true, if_false]
    exact ⟨_, rfl, rfl, fun e => Option.noConfusion e⟩

theorem c10_witness :
    ∃ js, Job.save 100 {baseJob with params := some "interval:2"} = Except.ok js ∧
      js.last_run = some 100 ∧
      (({baseJob with params := some "interval:2"} : Job).next_run = none →
        js.next_run =
          rruleAfter ({baseJob with params := some "interval:2"} : Job).frequency
            [("interval", ParamVal.scalar 2)] 100 100) :=
  c10_theorem 100 {baseJob with params := some "interval:2"}
    [("interval", ParamVal.scalar 2)] rfl rfl (by decide)

/-- A process-wide output channel: the original stdout, the original stderr, or a
StringIO buffer installed by run_management_command. -/
inductive Chan where
  | real_out
  | real_err
  | buffer (bid : Nat)
  deriving DecidableEq, Repr

/-- The process-wide sys.stdout and sys.stderr bindings. -/
structure Sys where
  stdout : Chan
  stderr : Chan
  deriving DecidableEq, Repr

/-- Behavior oracle for the external call_command collaborator: the text the
invoked command writes to the process-wide stdout and stderr channels (captured by
the installed buffers), and what it raises, if anything. -/
structure CmdBehavior where
  out : String
  err : String
  raises : Option PyExc
  deriving DecidableEq, Repr

/-- Modelled from the spec: Job._get_exception_string renders the
chronograph/traceback.txt template, which is not in the source tree; spec 4.3 says
a raised error is formatted with its message and full stack trace. -/
def excText (e : PyExc) : String := e.msg ++ "\n" ++ e.tb

/-- The channel state after run_management_command installs its two StringIO
buffers (models.py 226-227). -/
def redirectedSys : Sys := ⟨Chan.buffer 0, Chan.buffer 1⟩

/-- Job.run_management_command (models.py 213-243).  get_args runs before the
redirection and its ValueError propagates with the channels untouched.  The
command behavior is the cmd oracle.  except Exception catches only ordinary
errors; the restore of sys.stdout and sys.stderr is straight-line code, not a
finally block, so a fatal raise (SystemExit and kin) propagates with the channels
still redirected. -/
def Job.run_management_command (j : Job) (s : Sys) (cmd : CmdBehavior) :
    Except PyExc (Bool × String × String) × Sys :=
  match j.get_args with
  | none => (Except.error ⟨PyKind.ordinary, "ValueError: too many values to unpack", ""⟩, s)
  | some _ =>
    match cmd.raises with
    | none => (Except.ok (true, cmd.out, cmd.err ++ ""), s)
    | some e =>
      match e.kind with
      | PyKind.ordinary => (Except.ok (false, cmd.out, cmd.err ++ excText e), s)
      | PyKind.fatal => (Except.error e, redirectedSys)

/-- Result oracle for the external subprocess collaborator: either the child ran
to completion with captured stdout, stderr and an exit code, or spawning or
communicating raised. -/
inductive SpawnOutcome where
  | completed (out err : String) (returncode : Int)
  | failed (e : PyExc)
  deriving DecidableEq, Repr

/-- _escape_shell_command (models.py 344-347): backslash-escape every backtick,
dollar sign and double quote. -/
def escapeShellCommand (command : String) : String :=
  ((command.replace "`" "\\`").replace "$" "\\$").replace "\"" "\\\""

/-- Job.run_shell_command (models.py 245-269).  The command line is shell_command,
a space, then args; with run_in_shell it is escaped and run through a shell,
otherwise the spawner receives it for shell-lexical tokenization (the shlex and
subprocess stdlib collaborators sit behind the spawn oracle).  A nonzero exit code
appends the diagnostic line to stderr and success is exactly exit code zero; an
ordinary error raised while spawning is caught, its text appended to the (empty)
captured stderr, success false. -/
def Job.run_shell_command (j : Job) (spawn : Bool → String → SpawnOutcome) :
    Except PyExc (Bool × String × String) :=
  let command0 := j.shell_command ++ " " ++ j.args
  let command := if j.run_in_shell then escapeShellCommand command0 else command0
  match spawn j.run_in_shell command with
  | SpawnOutcome.completed out err rc =>
    if rc = 0 then Except.ok (true, out, err)
    else
      Except.ok (false, out,
        err ++ "\n\n*** Process ended with return code " ++ toString rc ++ "\n\n")
  | SpawnOutcome.failed e =>
    match e.kind with
    | PyKind.ordinary => Except.ok (false, "", "" ++ excText e)
    | PyKind.fatal => Except.error e

/-- The Log row of models.py. -/
structure Log where
  id : Nat
  job_id : Nat
  run_date : Nat
  end_date : Option Nat
  stdout : String
  stderr : String
  success : Bool
  deriving DecidableEq, Repr

/-- One send_mail call: the recipient list and the rendered template context
(chosen info output and the error output). -/
structure Notification where
  recipients : List String
  info_output : String
  error_output : String
  deriving DecidableEq, Repr

/-- Recipient formatting in Log.email_subscribers (models.py 320-324): full name
with email when a full name exists, else username with email. -/
def formatRecipient (u : User) : String :=
  if u.full_name ≠ "" then "\"" ++ u.full_name ++ "\" <" ++ u.email ++ ">"
  else "\"" ++ u.username ++ "\" <" ++ u.email ++ ">"

/-- Modelled from the spec: the admin change URL for a Log row, produced in the
source from Site.objects.get_current() and the Django url reverser, both external
collaborators; spec 4.5 calls it a reference identifying the Log entry. -/
def logLink (site : String) (logId : Nat) : String :=
  "http://" ++ site ++ "/admin/chronograph/log/" ++ toString logId ++ "/change/"

/-- Log.email_subscribers (models.py 307-342): with is_info the recipient list
comes from the info subscribers and the info output is the captured stdout;
otherwise from the error subscribers with the admin link to this Log as the info
output.  The context always carries the stderr text as error output, and exactly
one send_mail call is made. -/
def Log.email_subscribers (log : Log) (job : Job) (site : String) (is_info : Bool) :
    Notification :=
  if is_info then
    ⟨job.info_subscribers.map formatRecipient, log.stdout, log.stderr⟩
  else
    ⟨job.subscribers.map formatRecipient, logLink site log.id, log.stderr⟩

/-- Everything observable about one Job.run invocation: the error it raises to
its caller if any, the Log rows it creates, the send_mail calls it makes, the
stored Job row when it finishes, and the process-wide channel state. -/
structure RunOutcome where
  raised : Option PyExc
  logs : List Log
  notifs : List Notification
  job : Job
  sys : Sys
  deriving DecidableEq, Repr

/-- The UnboundLocalError that the finally block of Job.run raises when the
executor call raised: the local successful was never assigned. -/
def unboundLocalExc : PyExc :=
  ⟨PyKind.ordinary, "UnboundLocalError: local variable referenced before assignment", ""⟩

/-- The tail of Job.run (models.py 191-211) after a normal executor return and
successful saves: one Log row is created unconditionally, then the notification
step runs: on failure exactly one mail to the error subscribers, otherwise one
mail to the info subscribers when either captured stream is non-empty, else
none.  The fresh database id of the created row arrives as logId. -/
def runFinish (j4 : Job) (s1 : Sys) (site : String)
    (logId run_date end_date : Nat) (stdout_str stderr_str : String) : RunOutcome :=
  let log : Log := ⟨logId, j4.id, run_date, some end_date, stdout_str, stderr_str,
    j4.last_run_successful⟩
  let notifs :=
    if !j4.last_run_successful then [Log.email_subscribers log j4 site false]
    else if stdout_str ≠ "" || stderr_str ≠ "" then
      [Log.email_subscribers log j4 site true]
    else []
  ⟨none, [log], notifs, j4, s1⟩

/-- Job.run (models.py 160-211) over the single stored Job row, the channel
state, and the two executor oracles.  Its try has only a finally: when the
executor call raises, the finally block reads the never-assigned local successful,
so UnboundLocalError replaces the original error, propagates to the caller, the
store keeps is_running true and no Log row is created.  On a normal executor
return the job is reloaded, flagged and saved; with the save flag the dates
advance through the recurrence rule; then exactly one Log row is created and the
notification step of models.py 206-211 runs.  The wall-clock reads that the two
inner save calls make are identified with run_date, taken moments earlier. -/
def Job.run (j : Job) (saveFlag : Bool) (s : Sys) (cmd : CmdBehavior)
    (spawn : Bool → String → SpawnOutcome) (site : String)
    (logId run_date end_date : Nat) : RunOutcome :=
  match Job.save run_date {j with is_running := true} with
  | Except.error e => ⟨some e, [], [], j, s⟩
  | Except.ok j1 =>
    match
      (if j1.shell_command = "" then Job.run_management_command j1 s cmd
       else (Job.run_shell_command j1 spawn, s)) with
    | (Except.error _, s1) => ⟨some unboundLocalExc, [], [], j1, s1⟩
    | (Except.ok (successful, stdout_str, stderr_str), s1) =>
      match Job.save run_date
          {j1 with last_run_successful := successful, is_running := false} with
      | Except.error e => ⟨some e, [], [], j1, s1⟩
      | Except.ok j2 =>
        match
          (if saveFlag then
            match j2.get_params with
            | none => Except.error valueErrorExc
            | some ps =>
              Job.save run_date
                {j2 with last_run := some run_date,
                         next_run := rruleAfter j2.frequency ps run_date run_date}
          else Except.ok j2) with
        | Except.error e => ⟨some e, [], [], j2, s1⟩
        | Except.ok j4 => runFinish j4 s1 site logId run_date end_date stdout_str stderr_str

theorem run_shape (j : Job) (saveFlag : Bool) (s : Sys) (cmd : CmdBehavior)
    (spawn : Bool → String → SpawnOutcome) (site : String)
    (logId run_date end_date : Nat) :
    (Job.run j saveFlag s cmd spawn site logId run_date end_date).raised ≠ none ∨
    ∃ (j4 : Job) (s1 : Sys) (so ss : String),
      Job.run j saveFlag s cmd spawn site logId run_date end_date =
        runFinish j4 s1 site logId run_date end_date so ss := by
  unfold Job.run
  split
  · left; simp
  · split
    · left; simp
    · split
      · left; simp
      · split
        · left; simp
        · right; exact ⟨_, _, _, _, rfl⟩

/-- C6: after every completed run (run returned normally) exactly one Log row was
created, and the notification step behaves as claimed: when the run failed,
exactly one notification goes to the error subscribers and its context carries
the admin link identifying the Log entry (not the raw stdout) together with the
stderr text; when the run succeeded and either captured stream is non-empty,
exactly one notification goes to the info subscribers with the stdout text; when
the run succeeded with both streams empty, no notification is sent. -/
theorem c6_theorem (j : Job) (saveFlag : Bool) (s : Sys) (cmd : CmdBehavior)
    (spawn : Bool → String → SpawnOutcome) (site : String)
    (logId run_date end_date : Nat)
    (h : (Job.run j saveFlag s cmd spawn site logId run_date end_date).raised = none) :
    ∃ log : Log,
      (Job.run j saveFlag s cmd spawn site logId run_date end_date).logs = [log] ∧
      (log.success = false →
        (Job.run j saveFlag s cmd spawn site logId run_date end_date).notifs =
          [⟨((Job.run j saveFlag s cmd spawn site logId run_date end_date).job).subscribers.map
              formatRecipient, logLink site log.id, log.stderr⟩]) ∧
      (log.success = true → log.stdout = "" → log.stderr = "" →
        (Job.run j saveFlag s cmd spawn site logId run_date end_date).notifs = []) ∧
      (log.success = true → (log.stdout ≠ "" ∨ log.stderr ≠ "") →
        (Job.run j saveFlag s cmd spawn site logId run_date end_date).notifs =
          [⟨((Job.run j saveFlag s cmd spawn site logId run_date
              end_date).job).info_subscribers.map formatRecipient,
            log.stdout, log.stderr⟩]) := by
  rcases run_shape j saveFlag s cmd spawn site logId run_date end_date with
    hbad | ⟨j4, s1, so, ss, heq⟩
  · exact absurd h hbad
  · rw [heq]
    refine ⟨⟨logId, j4.id, run_date, some end_date, so, ss, j4.last_run_successful⟩,
      rfl, ?_, ?_, ?_⟩
    · intro hf
      simp only at hf
      simp [runFinish, Log.email_subscribers, hf]
    · intro ht h1 h2
      simp only at ht h1 h2
      simp [runFinish, ht, h1, h2]
    · intro ht hne
      simp only at ht hne
      rcases hne with hne | hne <;>
        simp [runFinish, Log.email_subscribers, ht, hne]

theorem c6_witness :
    ∃ log : Log,
      (Job.run baseJob true ⟨Chan.real_out, Chan.real_err⟩ ⟨"hello", "", none⟩
        (fun _ _ => SpawnOutcome.completed "" "" 0) "example.com" 7 100 200).logs = [log] ∧
      (log.success = false →
        (Job.run baseJob true ⟨Chan.real_out, Chan.real_err⟩ ⟨"hello", "", none⟩
          (fun _ _ => SpawnOutcome.completed "" "" 0) "example.com" 7 100 200).notifs =
          [⟨((Job.run baseJob true ⟨Chan.real_out, Chan.real_err⟩ ⟨"hello", "", none⟩
              (fun _ _ => SpawnOutcome.completed "" "" 0) "example.com" 7 100
              200).job).subscribers.map formatRecipient, logLink "example.com" log.id,
            log.stderr⟩]) ∧
      (log.success = true → log.stdout = "" → log.stderr = "" →
        (Job.run baseJob true ⟨Chan.real_out, Chan.real_err⟩ ⟨"hello", "", none⟩
          (fun _ _ => SpawnOutcome.completed "" "" 0) "example.com" 7 100 200).notifs = []) ∧
      (log.success = true → (log.stdout ≠ "" ∨ log.stderr ≠ "") →
        (Job.run baseJob true ⟨Chan.real_out, Chan.real_err⟩ ⟨"hello", "", none⟩
          (fun _ _ => SpawnOutcome.completed "" "" 0) "example.com" 7 100 200).notifs =
          [⟨((Job.run baseJob true ⟨Chan.real_out, Chan.real_err⟩ ⟨"hello", "", none⟩
              (fun _ _ => SpawnOutcome.completed "" "" 0) "example.com" 7 100
              200).job).info_subscribers.map formatRecipient, log.stdout, log.stderr⟩]) :=
  c6_theorem baseJob true ⟨Chan.real_out, Chan.real_err⟩ ⟨"hello", "", none⟩
    (fun _ _ => SpawnOutcome.completed "" "" 0) "example.com" 7 100 200 (by decide)

/-- C1: evaluation of Job.run at the failing input.  A job in in-process command
mode whose args field is a=b=c makes get_args raise ValueError before the
executor catch-all can see it; the finally block of run then reads the unbound
local successful, so run raises UnboundLocalError to its caller and no Log row is
created, contrary to the claim and to the source comment that a log entry is
created no matter what. -/
theorem c1_theorem :
    (Job.run {baseJob with command := "foo", args := "a=b=c"} true
        ⟨Chan.real_out, Chan.real_err⟩ ⟨"", "", none⟩
        (fun _ _ => SpawnOutcome.completed "" "" 0) "example.com" 7 100 200).raised =
      some unboundLocalExc ∧
    (Job.run {baseJob with command := "foo", args := "a=b=c"} true
        ⟨Chan.real_out, Chan.real_err⟩ ⟨"", "", none⟩
        (fun _ _ => SpawnOutcome.completed "" "" 0) "example.com" 7 100 200).logs = [] := by
  decide

/-- C4 counterexample: when the invoked command raises SystemExit (fatal, outside
the except Exception clause), run_management_command propagates the error and the
channel state afterwards is still the redirected buffers, not the original
channels: the restore statements are not in a finally block, so this exit path
does not restore them, and the error is not caught. -/
theorem c4_counterexample :
    (Job.run_management_command {baseJob with command := "foo"}
        ⟨Chan.real_out, Chan.real_err⟩
        ⟨"", "", some ⟨PyKind.fatal, "SystemExit: 1", "traceback text"⟩⟩).2 ≠
      (⟨Chan.real_out, Chan.real_err⟩ : Sys) ∧
    (Job.run_management_command {baseJob with command := "foo"}
        ⟨Chan.real_out, Chan.real_err⟩
        ⟨"", "", some ⟨PyKind.fatal, "SystemExit: 1", "traceback text"⟩⟩).1 =
      Except.error ⟨PyKind.fatal, "SystemExit: 1", "traceback text"⟩ := by decide

/-- C4 (amended): in in-process command mode the process-wide channels are
redirected for the invocation; on normal completion, and when the command raises
an ordinary exception, the original channels are restored, the exception is
caught, formatted with its message and stack trace, appended to the captured
stderr, and success is false exactly on exception; but an error outside the
ordinary Exception class (such as SystemExit) propagates uncaught and leaves the
channels redirected, because the restore is straight-line code rather than a
finally block. -/
theorem c4_theorem (j : Job) (s : Sys) (cmd : CmdBehavior)
    (hargs : (Job.get_args j).isSome = true) :
    (cmd.raises = none →
      Job.run_management_command j s cmd = (Except.ok (true, cmd.out, cmd.err ++ ""), s)) ∧
    (∀ m tb, cmd.raises = some ⟨PyKind.ordinary, m, tb⟩ →
      Job.run_management_command j s cmd =
        (Except.ok (false, cmd.out, cmd.err ++ excText ⟨PyKind.ordinary, m, tb⟩), s)) ∧
    (∀ m tb, cmd.raises = some ⟨PyKind.fatal, m, tb⟩ →
      Job.run_management_command j s cmd =
        (Except.error ⟨PyKind.fatal, m, tb⟩, redirectedSys)) := by
  obtain ⟨a, ha⟩ := Option.isSome_iff_exists.mp hargs
  refine ⟨?_, ?_, ?_⟩
  · intro hr
    unfold Job.run_management_command
    rw [ha, hr]
  · intro m tb hr
    unfold Job.run_management_command
    rw [ha, hr]
  · intro m tb hr
    unfold Job.run_management_command
    rw [ha, hr]

theorem c4_witness :
    Job.run_management_command baseJob ⟨Chan.real_out, Chan.real_err⟩ ⟨"hi", "", none⟩ =
      (Except.ok (true, "hi", "" ++ ""), (⟨Chan.real_out, Chan.real_err⟩ : Sys)) :=
  (c4_theorem baseJob ⟨Chan.real_out, Chan.real_err⟩ ⟨"hi", "", none⟩ (by decide)).1 rfl

/-- C8: in external shell-command mode success is exactly exit code zero; a
nonzero exit appends the return-code diagnostic line to the captured stderr; and
an ordinary spawn failure (command not found and kin) is caught rather than
propagated, its formatted error text becomes the captured stderr and success is
false. -/
theorem c8_theorem (j : Job) :
    (∀ (out err : String) (rc : Int), rc ≠ 0 →
      Job.run_shell_command j (fun _ _ => SpawnOutcome.completed out err rc) =
        Except.ok (false, out,
          err ++ "\n\n*** Process ended with return code " ++ toString rc ++ "\n\n")) ∧
    (∀ (out err : String),
      Job.run_shell_command j (fun _ _ => SpawnOutcome.completed out err 0) =
        Except.ok (true, out, err)) ∧
    (∀ m tb : String,
      Job.run_shell_command j (fun _ _ => SpawnOutcome.failed ⟨PyKind.ordinary, m, tb⟩) =
        Except.ok (false, "", "" ++ excText ⟨PyKind.ordinary, m, tb⟩)) := by
  refine ⟨?_, ?_, ?_⟩
  · intro out err rc hrc
    simp [Job.run_shell_command, hrc]
  · intro out err
    rfl
  · intro m tb
    rfl

theorem c8_witness :
    Job.run_shell_command {baseJob with shell_command := "false"}
        (fun _ _ => SpawnOutcome.completed "" "" 1) =
      Except.ok (false, "",
        "" ++ "\n\n*** Process ended with return code " ++ toString (1 : Int) ++ "\n\n") :=
  (c8_theorem {baseJob with shell_command := "false"}).1 "" "" 1 (by decide)
